import Mathlib

/-!
Shallow embedding of `data_schema/models.py` (django-data-schema).

The source defines two Django models, `DataSchema` and `FieldSchema`.
`DataSchema.get_unique_fields` filters the prefetched `fieldschema_set` to
fields with non-null `uniqueness_order`, sorts them by that order and caches
the result in the `_unique_fields` attribute.  `DataSchema.get_fields` sorts
the whole `fieldschema_set` by `field_position` on every call (no caching).
`FieldSchema.get_value` / `set_value` dispatch on the runtime shape of the
record (`isinstance(obj, list)`, then `isinstance(obj, dict)`, else
attribute access) and `get_value` converts the raw value via
`convert_value(FIELD_SCHEMA_PYTHON_TYPES[self.field_type], value, self.field_format)`.

The code base is Python 2 / Django < 2 era (`super(DataSchemaManager, self)`,
`ForeignKey` without `on_delete`), so `sorted` compares `None` below every
integer; the key order `pyLt` below encodes exactly that.

`convert_value` lives in `data_schema/convert_value.py`, which is not part of
the sources here; it is modelled from the spec (section 4.1) and marked as
such.  Python exceptions are embedded as the spec's error taxonomy:
`IndexError` / `KeyError` on a record slot / `AttributeError` become
`fieldAccessError`, a failed conversion is `conversionError`, the `KeyError`
raised by `FIELD_SCHEMA_PYTHON_TYPES[...]` on an unsupported `field_type` is
`configurationError`, and the `TypeError` from indexing a list with `None`
is `typeError`.
-/

/-- Python values that can sit in a record slot or result from a conversion. -/
inductive PyValue where
  | vStr (s : String)
  | vInt (n : Int)
  | vFloat (q : Rat)
  | vDate (y m d : Int)
  | vDatetime (y mo d h mi s : Int)
  deriving Repr, DecidableEq

/-- The five target python types of `FIELD_SCHEMA_PYTHON_TYPES`. -/
inductive PyType where
  | tDate
  | tDatetime
  | tInt
  | tFloat
  | tString
  deriving Repr, DecidableEq

/-- Error taxonomy of the spec, as which the Python exceptions are embedded. -/
inductive DataErr where
  | fieldAccessError
  | conversionError
  | configurationError
  | typeError
  deriving Repr, DecidableEq

/-- One `FieldSchema` row: the attributes `get_value` / `set_value` and the
schema orderings read.  Nullable columns are `Option`. -/
structure FieldSchema where
  field_key : String
  uniqueness_order : Option Int
  field_position : Option Int
  field_type : String
  field_format : Option String
  deriving Repr, DecidableEq

/-- Python-2 `<` on sort keys: `None` compares below every integer. -/
def pyLt : Option Int → Option Int → Bool
  | none, none => false
  | none, some _ => true
  | some _, none => false
  | some a, some b => a < b

/-- Python-2 `<=` on sort keys (`a <= b` iff `not (b < a)`). -/
def pyLe (a b : Option Int) : Bool := !(pyLt b a)

/-- Insert `x` into `l` before the first element whose key is not below
`key x`; equal keys keep `x` first, as a stable sort requires. -/
def insertK (key : FieldSchema → Option Int) (x : FieldSchema) :
    List FieldSchema → List FieldSchema
  | [] => [x]
  | y :: ys => if pyLe (key x) (key y) then x :: y :: ys else y :: insertK key x ys

/-- Stable insertion sort by `key`: the embedding of Python's stable
`sorted(..., key=...)` / `list.sort(key=...)`. -/
def sortByKey (key : FieldSchema → Option Int) : List FieldSchema → List FieldSchema
  | [] => []
  | x :: xs => insertK key x (sortByKey key xs)

/-- A `DataSchema` instance: the prefetched `fieldschema_set` plus the
`_unique_fields` attribute (absent until `get_unique_fields` first runs). -/
structure DataSchema where
  fieldschema_set : List FieldSchema
  unique_fields_cache : Option (List FieldSchema)
  deriving Repr, DecidableEq

/-- `DataSchema.get_unique_fields`: if `_unique_fields` is not yet set,
filter the prefetched fields to those with non-null `uniqueness_order`,
sort by `uniqueness_order` and store the result; return the stored list.
The updated instance is returned alongside the list. -/
def DataSchema.get_unique_fields (s : DataSchema) :
    List FieldSchema × DataSchema :=
  match s.unique_fields_cache with
  | some l => (l, s)
  | none =>
      let l := sortByKey (fun f => f.uniqueness_order)
        (s.fieldschema_set.filter (fun f => f.uniqueness_order.isSome))
      (l, { s with unique_fields_cache := some l })

/-- `DataSchema.get_fields`: `sorted(self.fieldschema_set.all(), key=lambda k: k.field_position)`.
Computed afresh on every call; nothing is cached. -/
def DataSchema.get_fields (s : DataSchema) : List FieldSchema :=
  sortByKey (fun f => f.field_position) s.fieldschema_set

/-- `FIELD_SCHEMA_PYTHON_TYPES` as a partial map; a `field_type` outside the
five `FieldSchemaType` members has no entry (lookup raises `KeyError`). -/
def FIELD_SCHEMA_PYTHON_TYPES (t : String) : Option PyType :=
  if t = "DATE" then some .tDate
  else if t = "DATETIME" then some .tDatetime
  else if t = "INT" then some .tInt
  else if t = "FLOAT" then some .tFloat
  else if t = "STRING" then some .tString
  else none

/-- The record shapes `get_value` / `set_value` can receive.  `isinstance`
dispatch distinguishes lists and dicts; every other object falls through to
attribute access, so a tuple (`rtuple`) — ordered but not a `list` — and an
attribute-bearing object (`robj`, attributes as an association list) are
separate shapes that both reach the `getattr` / `setattr` branch. -/
inductive Record where
  | rlist (vs : List PyValue)
  | rdict (kvs : List (String × PyValue))
  | robj (attrs : List (String × PyValue))
  | rtuple (vs : List PyValue)
  deriving Repr, DecidableEq

/-- Python list indexing: a valid index is `0 <= p < n` or, counting from the
end, `-n <= p < 0`; anything else raises `IndexError`. -/
def pyIdx (n : Nat) (p : Int) : Option Nat :=
  if 0 ≤ p ∧ p < (n : Int) then some p.toNat
  else if -(n : Int) ≤ p ∧ p < 0 then some (p + n).toNat
  else none

/-- First-match association-list lookup (dict key / object attribute read). -/
def lookupK (k : String) : List (String × PyValue) → Option PyValue
  | [] => none
  | (k', v') :: t => if k' = k then some v' else lookupK k t

/-- Association-list store: replace the first binding of `k`, or append
(dict item / object attribute assignment always succeeds). -/
def setK (k : String) (v : PyValue) : List (String × PyValue) → List (String × PyValue)
  | [] => [(k, v)]
  | (k', v') :: t => if k' = k then (k, v) :: t else (k', v') :: setK k v t

/-- The raw slot read of `get_value` (lines 121-126): index `field_position`
in a list, key `field_key` in a dict, attribute `field_key` otherwise.
A tuple has no attribute named like a data field, so `getattr` fails. -/
def FieldSchema.get_raw (fld : FieldSchema) (obj : Record) : Except DataErr PyValue :=
  match obj with
  | .rlist vs =>
      match fld.field_position with
      | none => .error .typeError
      | some p =>
          match (pyIdx vs.length p).bind (fun i => vs[i]?) with
          | some v => .ok v
          | none => .error .fieldAccessError
  | .rdict kvs =>
      match lookupK fld.field_key kvs with
      | some v => .ok v
      | none => .error .fieldAccessError
  | .robj attrs =>
      match lookupK fld.field_key attrs with
      | some v => .ok v
      | none => .error .fieldAccessError
  | .rtuple _ => .error .fieldAccessError

/-- `FieldSchema.set_value`: same shape dispatch for writing.  List stores
need a pre-allocated index; dict and attribute stores always succeed; a
tuple rejects `setattr` (`AttributeError`). -/
def FieldSchema.set_value (fld : FieldSchema) (obj : Record) (value : PyValue) :
    Except DataErr Record :=
  match obj with
  | .rlist vs =>
      match fld.field_position with
      | none => .error .typeError
      | some p =>
          match pyIdx vs.length p with
          | some i => .ok (.rlist (vs.set i value))
          | none => .error .fieldAccessError
  | .rdict kvs => .ok (.rdict (setK fld.field_key value kvs))
  | .robj attrs => .ok (.robj (setK fld.field_key value attrs))
  | .rtuple _ => .error .fieldAccessError

/-- Digit-string to number (no sign, at least one digit, digits only). -/
def digitsToNat : List Char → Option Nat
  | [] => none
  | cs =>
      if cs.all Char.isDigit then
        some (cs.foldl (fun acc c => 10 * acc + (c.toNat - 48)) 0)
      else none

/-- Modelled from the spec: standard integer parsing of a string
(`int(...)`): optional sign followed by digits. -/
def parseIntStr (s : String) : Option Int :=
  match s.data with
  | '-' :: cs => (digitsToNat cs).map (fun n => -(n : Int))
  | '+' :: cs => (digitsToNat cs).map (fun n => (n : Int))
  | cs => (digitsToNat cs).map (fun n => (n : Int))

/-- Modelled from the spec: standard float parsing of a string
(`float(...)`): optional sign, digits, optional fractional part. -/
def parseFloatStr (s : String) : Option Rat :=
  let core : List Char → Option Rat := fun cs =>
    match cs.splitOn '.' with
    | [ip] => (digitsToNat ip).map (fun n => (n : Rat))
    | [ip, fp] =>
        match digitsToNat ip, digitsToNat fp with
        | some i, some f => some ((i : Rat) + (f : Rat) / ((10 : Rat) ^ fp.length))
        | _, _ => none
    | _ => none
  match s.data with
  | '-' :: cs => (core cs).map (fun q => -q)
  | '+' :: cs => core cs
  | cs => core cs

/-- Read exactly `n` digits off the front of a character stream. -/
def takeDigits (n : Nat) (cs : List Char) : Option (Nat × List Char) :=
  let pre := cs.take n
  if pre.length = n then (digitsToNat pre).map (fun v => (v, cs.drop n))
  else none

/-- Parsed `strptime`-style fields: year, month, day, hour, minute, second. -/
structure ParsedDT where
  y : Int
  mo : Int
  d : Int
  h : Int
  mi : Int
  s : Int
  deriving Repr, DecidableEq

/-- Modelled from the spec: a `strptime`-like matcher for the format hint.
`%Y` reads four digits, `%m` `%d` `%H` `%M` `%S` two, `%%` a literal `%`;
any other format character must match the input literally.  `none` when the
string does not match the pattern. -/
def matchFormat : List Char → List Char → ParsedDT → Option ParsedDT
  | [], [], acc => some acc
  | '%' :: 'Y' :: fs, cs, acc =>
      (takeDigits 4 cs).bind (fun (v, rest) => matchFormat fs rest { acc with y := v })
  | '%' :: 'm' :: fs, cs, acc =>
      (takeDigits 2 cs).bind (fun (v, rest) => matchFormat fs rest { acc with mo := v })
  | '%' :: 'd' :: fs, cs, acc =>
      (takeDigits 2 cs).bind (fun (v, rest) => matchFormat fs rest { acc with d := v })
  | '%' :: 'H' :: fs, cs, acc =>
      (takeDigits 2 cs).bind (fun (v, rest) => matchFormat fs rest { acc with h := v })
  | '%' :: 'M' :: fs, cs, acc =>
      (takeDigits 2 cs).bind (fun (v, rest) => matchFormat fs rest { acc with mi := v })
  | '%' :: 'S' :: fs, cs, acc =>
      (takeDigits 2 cs).bind (fun (v, rest) => matchFormat fs rest { acc with s := v })
  | '%' :: '%' :: fs, '%' :: cs, acc => matchFormat fs cs acc
  | f :: fs, c :: cs, acc => if f = c then matchFormat fs cs acc else none
  | _, _, _ => none

/-- Modelled from the spec: `str(...)` of a value (always succeeds). -/
def pyStr : PyValue → String
  | .vStr s => s
  | .vInt n => toString n
  | .vFloat q => toString q
  | .vDate y m d => toString y ++ "-" ++ toString m ++ "-" ++ toString d
  | .vDatetime y mo d h mi s =>
      toString y ++ "-" ++ toString mo ++ "-" ++ toString d ++ " " ++
        toString h ++ ":" ++ toString mi ++ ":" ++ toString s

/-- Whether a value already is an instance of the target python type. -/
def isInstanceOf : PyValue → PyType → Bool
  | .vStr _, .tString => true
  | .vInt _, .tInt => true
  | .vFloat _, .tFloat => true
  | .vDate _ _ _, .tDate => true
  | .vDatetime _ _ _ _ _ _, .tDatetime => true
  | _, _ => false

/-- Modelled from the spec: `convert_value` of `data_schema/convert_value.py`
(the file is not among the sources; section 4.1 of the spec gives its
contract).  A value already of the target type is returned unchanged; DATE
and DATETIME parse strings with the format hint and fail with
`conversionError` when the hint is absent or does not match; INT and FLOAT
coerce numeric-like input and fail with `conversionError` otherwise; STRING
applies standard string conversion; every other combination is a
`conversionError`. -/
def convert_value (target : PyType) (v : PyValue) (fmt : Option String) :
    Except DataErr PyValue :=
  if isInstanceOf v target then .ok v
  else
    match target, v with
    | .tDate, .vStr s =>
        match fmt with
        | none => .error .conversionError
        | some f =>
            match matchFormat f.data s.data ⟨1900, 1, 1, 0, 0, 0⟩ with
            | some p => .ok (.vDate p.y p.mo p.d)
            | none => .error .conversionError
    | .tDatetime, .vStr s =>
        match fmt with
        | none => .error .conversionError
        | some f =>
            match matchFormat f.data s.data ⟨1900, 1, 1, 0, 0, 0⟩ with
            | some p => .ok (.vDatetime p.y p.mo p.d p.h p.mi p.s)
            | none => .error .conversionError
    | .tInt, .vStr s =>
        match parseIntStr s with
        | some n => .ok (.vInt n)
        | none => .error .conversionError
    | .tInt, .vFloat q => .ok (.vInt q.floor)
    | .tFloat, .vStr s =>
        match parseFloatStr s with
        | some q => .ok (.vFloat q)
        | none => .error .conversionError
    | .tFloat, .vInt n => .ok (.vFloat (n : Rat))
    | .tString, w => .ok (.vStr (pyStr w))
    | _, _ => .error .conversionError

/-- `FieldSchema.get_value` (lines 117-128): extract the raw slot value by
shape dispatch, look up the python type of `field_type` (an unsupported
type makes the lookup fail — the spec's `configurationError`), then convert. -/
def FieldSchema.get_value (fld : FieldSchema) (obj : Record) : Except DataErr PyValue := do
  let value ← fld.get_raw obj
  match FIELD_SCHEMA_PYTHON_TYPES fld.field_type with
  | none => .error .configurationError
  | some ty => convert_value ty value fld.field_format

/-- Frame condition for `set_value`: the record keeps its shape and every
slot other than the one the field resolves to is unchanged (list: all other
indices and the length; dict / object: all other keys / attributes). -/
def writeFrame (fld : FieldSchema) : Record → Record → Prop
  | .rlist vs, .rlist vs' =>
      vs'.length = vs.length ∧
        ∀ j : Nat, fld.field_position.bind (pyIdx vs.length) ≠ some j → vs'[j]? = vs[j]?
  | .rdict kvs, .rdict kvs' => ∀ k, k ≠ fld.field_key → lookupK k kvs' = lookupK k kvs
  | .robj a, .robj a' => ∀ k, k ≠ fld.field_key → lookupK k a' = lookupK k a
  | _, _ => False

/-- Field A of the spec scenario: key "a", position 0, INT, uniqueness order 1. -/
def fA : FieldSchema := ⟨"a", some 1, some 0, "INT", none⟩

/-- Field B of the spec scenario: key "b", position 1, STRING, uniqueness order 0. -/
def fB : FieldSchema := ⟨"b", some 0, some 1, "STRING", none⟩

/-- A field with a null `field_position` (and no uniqueness order). -/
def fN : FieldSchema := ⟨"n", none, none, "STRING", none⟩

/-- Two fields sharing `uniqueness_order` and `field_position` (a tie). -/
def fT1 : FieldSchema := ⟨"t1", some 5, some 3, "STRING", none⟩

/-- Second field of the tie; distinct key, same sort keys as `fT1`. -/
def fT2 : FieldSchema := ⟨"t2", some 5, some 3, "INT", none⟩

/-- A freshly loaded schema instance holding fields A and B. -/
def sMut0 : DataSchema := ⟨[fA, fB], none⟩

/-- The same instance after its first `get_unique_fields` call. -/
def sMut1 : DataSchema := (sMut0.get_unique_fields).2

/-- The same instance after its field collection is mutated to `[fB]`
(the `_unique_fields` attribute is untouched; no new instance is built). -/
def sMut2 : DataSchema := { sMut1 with fieldschema_set := [fB] }

theorem pyLt_irrefl (a : Option Int) : pyLt a a = false := by
  cases a <;> simp [pyLt]

theorem pyLt_ne {a b : Option Int} (h : pyLt a b = true) : a ≠ b := by
  intro he
  subst he
  simp [pyLt_irrefl] at h

theorem pyLe_of_not {a b : Option Int} (h : pyLe a b ≠ true) : pyLe b a = true := by
  cases a <;> cases b <;> simp_all [pyLe, pyLt] <;> omega

theorem pyLt_of_not_pyLe {a b : Option Int} (h : pyLe a b ≠ true) : pyLt b a = true := by
  cases a <;> cases b <;> simp_all [pyLe, pyLt]

theorem pyLe_trans {a b c : Option Int} (h1 : pyLe a b = true) (h2 : pyLe b c = true) :
    pyLe a c = true := by
  cases a <;> cases b <;> cases c <;> simp_all [pyLe, pyLt] <;> omega

theorem mem_insertK (key : FieldSchema → Option Int) (x a : FieldSchema)
    (l : List FieldSchema) : a ∈ insertK key x l ↔ a = x ∨ a ∈ l := by
  induction l with
  | nil => simp [insertK]
  | cons y ys ih =>
    by_cases h : pyLe (key x) (key y) = true
    · simp [insertK, h, List.mem_cons]
    · simp [insertK, h, List.mem_cons, ih]
      tauto

theorem insertK_perm (key : FieldSchema → Option Int) (x : FieldSchema)
    (l : List FieldSchema) : (insertK key x l).Perm (x :: l) := by
  induction l with
  | nil => simp [insertK]
  | cons y ys ih =>
    by_cases h : pyLe (key x) (key y) = true
    · simp [insertK, h]
    · rw [insertK, if_neg h]
      exact (ih.cons y).trans (List.Perm.swap x y ys)

theorem sortByKey_perm (key : FieldSchema → Option Int) (l : List FieldSchema) :
    (sortByKey key l).Perm l := by
  induction l with
  | nil => simp [sortByKey]
  | cons x xs ih =>
    rw [sortByKey]
    exact (insertK_perm key x (sortByKey key xs)).trans (ih.cons x)

theorem insertK_sorted (key : FieldSchema → Option Int) (x : FieldSchema)
    (l : List FieldSchema)
    (h : l.Pairwise (fun a b => pyLe (key a) (key b) = true)) :
    (insertK key x l).Pairwise (fun a b => pyLe (key a) (key b) = true) := by
  induction l with
  | nil => simp [insertK]
  | cons y ys ih =>
    rw [List.pairwise_cons] at h
    obtain ⟨hy, hys⟩ := h
    by_cases hxy : pyLe (key x) (key y) = true
    · rw [insertK, if_pos hxy]
      refine List.Pairwise.cons ?_ (List.Pairwise.cons hy hys)
      intro b hb
      rcases List.mem_cons.mp hb with rfl | hbys
      · exact hxy
      · exact pyLe_trans hxy (hy b hbys)
    · rw [insertK, if_neg hxy]
      refine List.Pairwise.cons ?_ (ih hys)
      intro b hb
      rcases (mem_insertK key x b ys).mp hb with rfl | hbys
      · exact pyLe_of_not hxy
      · exact hy b hbys

theorem sortByKey_sorted (key : FieldSchema → Option Int) (l : List FieldSchema) :
    (sortByKey key l).Pairwise (fun a b => pyLe (key a) (key b) = true) := by
  induction l with
  | nil => simp [sortByKey]
  | cons x xs ih => exact insertK_sorted key x (sortByKey key xs) ih

theorem insertK_filter_eq (key : FieldSchema → Option Int) (x : FieldSchema)
    (k : Option Int) (hx : key x = k) (l : List FieldSchema) :
    (insertK key x l).filter (fun f => key f == k) =
      x :: l.filter (fun f => key f == k) := by
  induction l with
  | nil => simp [insertK, List.filter, hx]
  | cons y ys ih =>
    by_cases hxy : pyLe (key x) (key y) = true
    · rw [insertK, if_pos hxy]
      simp [List.filter_cons, hx]
    · rw [insertK, if_neg hxy]
      have hyx : pyLt (key y) (key x) = true := pyLt_of_not_pyLe hxy
      have hyne : (key y == k) = false := by
        have : key y ≠ k := hx ▸ pyLt_ne hyx
        simpa using this
      simp only [List.filter_cons, hyne, ih]
      simp

theorem insertK_filter_ne (key : FieldSchema → Option Int) (x : FieldSchema)
    (k : Option Int) (hx : key x ≠ k) (l : List FieldSchema) :
    (insertK key x l).filter (fun f => key f == k) =
      l.filter (fun f => key f == k) := by
  have hxf : (key x == k) = false := by simpa using hx
  induction l with
  | nil => simp [insertK, List.filter, hxf]
  | cons y ys ih =>
    by_cases hxy : pyLe (key x) (key y) = true
    · rw [insertK, if_pos hxy]
      simp [List.filter_cons, hxf]
    · rw [insertK, if_neg hxy]
      simp only [List.filter_cons, ih]

theorem sortByKey_filter (key : FieldSchema → Option Int) (l : List FieldSchema)
    (k : Option Int) :
    (sortByKey key l).filter (fun f => key f == k) =
      l.filter (fun f => key f == k) := by
  induction l with
  | nil => simp [sortByKey]
  | cons x xs ih =>
    rw [sortByKey]
    by_cases hx : key x = k
    · rw [insertK_filter_eq key x k hx, ih]
      simp [List.filter_cons, hx]
    · rw [insertK_filter_ne key x k hx, ih]
      have hxf : (key x == k) = false := by simpa using hx
      simp [List.filter_cons, hxf]

/-- C1: on a schema whose fields are materialized (fresh instance, the
`_unique_fields` attribute not yet set), `get_unique_fields` returns exactly
the owned fields with non-null `uniqueness_order` (a permutation of that
filter), sorted ascending by `uniqueness_order`; no null-order field
appears. -/
theorem claim1_get_unique_fields (s : DataSchema)
    (h : s.unique_fields_cache = none) :
    (s.get_unique_fields.1).Perm
        (s.fieldschema_set.filter (fun f => f.uniqueness_order.isSome)) ∧
    (s.get_unique_fields.1).Pairwise
        (fun a b => pyLe a.uniqueness_order b.uniqueness_order = true) ∧
    ∀ f ∈ s.get_unique_fields.1, f.uniqueness_order ≠ none := by
  have hu : s.get_unique_fields.1 = sortByKey (fun f => f.uniqueness_order)
      (s.fieldschema_set.filter (fun f => f.uniqueness_order.isSome)) := by
    simp [DataSchema.get_unique_fields, h]
  rw [hu]
  refine ⟨sortByKey_perm _ _, sortByKey_sorted _ _, ?_⟩
  intro f hf
  have hmem : f ∈ s.fieldschema_set.filter (fun f => f.uniqueness_order.isSome) :=
    (sortByKey_perm _ _).mem_iff.mp hf
  have hsome : f.uniqueness_order.isSome := (List.mem_filter.mp hmem).2
  exact Option.isSome_iff_ne_none.mp hsome

/-- C1 witness: the spec scenario, fields A(order 1) and B(order 0), gives
`[B, A]`, which satisfies all three conclusions of the claim. -/
theorem claim1_get_unique_fields_witness :
    (sMut0.unique_fields_cache = none) ∧
    sMut0.get_unique_fields.1 = [fB, fA] ∧
    (sMut0.get_unique_fields.1).Perm
        (sMut0.fieldschema_set.filter (fun f => f.uniqueness_order.isSome)) ∧
    (sMut0.get_unique_fields.1).Pairwise
        (fun a b => pyLe a.uniqueness_order b.uniqueness_order = true) ∧
    ∀ f ∈ sMut0.get_unique_fields.1, f.uniqueness_order ≠ none :=
  ⟨rfl, by decide, (claim1_get_unique_fields sMut0 rfl).1,
    (claim1_get_unique_fields sMut0 rfl).2.1,
    (claim1_get_unique_fields sMut0 rfl).2.2⟩

/-- C2: `get_fields` returns exactly the schema's owned fields — a
permutation of `fieldschema_set` — sorted ascending by `field_position`;
on the spec scenario it returns `[A, B]`. -/
theorem claim2_get_fields :
    (∀ s : DataSchema,
      (s.get_fields).Perm s.fieldschema_set ∧
      (s.get_fields).Pairwise
        (fun a b => pyLe a.field_position b.field_position = true)) ∧
    DataSchema.get_fields ⟨[fA, fB], none⟩ = [fA, fB] := by
  refine ⟨fun s => ⟨sortByKey_perm _ _, sortByKey_sorted _ _⟩, ?_⟩
  decide

/-- C8: a field with null `field_position` still appears in the
`get_fields` listing, and the listing has the full length (nothing is
omitted and nothing fails: under the code's Python-2 ordering `None`
compares below every integer). -/
theorem claim8_null_position (s : DataSchema) (f : FieldSchema)
    (hf : f ∈ s.fieldschema_set) (hnull : f.field_position = none) :
    f ∈ s.get_fields ∧ s.get_fields.length = s.fieldschema_set.length :=
  ⟨(sortByKey_perm _ _).mem_iff.mpr hf, (sortByKey_perm _ _).length_eq⟩

/-- C8 witness: a schema with fields A(position 0) and N(position null)
lists both; N sorts first (undefined position below every integer). -/
theorem claim8_null_position_witness :
    (fN ∈ ([fA, fN] : List FieldSchema)) ∧ fN.field_position = none ∧
    DataSchema.get_fields ⟨[fA, fN], none⟩ = [fN, fA] ∧
    (fN ∈ DataSchema.get_fields ⟨[fA, fN], none⟩) ∧
    (DataSchema.get_fields ⟨[fA, fN], none⟩).length =
      ([fA, fN] : List FieldSchema).length :=
  ⟨by decide, rfl, by decide,
    (claim8_null_position ⟨[fA, fN], none⟩ fN (by decide) rfl).1,
    (claim8_null_position ⟨[fA, fN], none⟩ fN (by decide) rfl).2⟩

/-- C9: both sorts are stable: restricted to any single sort-key value, the
output of `get_unique_fields` / `get_fields` lists the tied fields in their
original `fieldschema_set` order (their filter by that key is unchanged). -/
theorem claim9_stable_sorts (s : DataSchema)
    (h : s.unique_fields_cache = none) :
    (∀ k : Int,
      (s.get_unique_fields.1).filter (fun f => f.uniqueness_order == some k) =
        s.fieldschema_set.filter (fun f => f.uniqueness_order == some k)) ∧
    (∀ k : Option Int,
      (s.get_fields).filter (fun f => f.field_position == k) =
        s.fieldschema_set.filter (fun f => f.field_position == k)) := by
  constructor
  · intro k
    have hu : s.get_unique_fields.1 = sortByKey (fun f => f.uniqueness_order)
        (s.fieldschema_set.filter (fun f => f.uniqueness_order.isSome)) := by
      simp [DataSchema.get_unique_fields, h]
    rw [hu, sortByKey_filter, List.filter_filter]
    apply List.filter_congr
    intro f _
    cases ho : f.uniqueness_order <;> simp [ho]
  · intro k
    exact sortByKey_filter _ _ _

/-- C9 witness: two fields tied on both `uniqueness_order` (5) and
`field_position` (3) keep their original relative order `[T2, T1]` in both
listings. -/
theorem claim9_stable_sorts_witness :
    ((⟨[fT2, fT1], none⟩ : DataSchema).unique_fields_cache = none) ∧
    (DataSchema.get_unique_fields ⟨[fT2, fT1], none⟩).1 = [fT2, fT1] ∧
    DataSchema.get_fields ⟨[fT2, fT1], none⟩ = [fT2, fT1] ∧
    ((DataSchema.get_unique_fields ⟨[fT2, fT1], none⟩).1.filter
        (fun f => f.uniqueness_order == some 5) =
      ([fT2, fT1] : List FieldSchema).filter
        (fun f => f.uniqueness_order == some 5)) ∧
    ((DataSchema.get_fields ⟨[fT2, fT1], none⟩).filter
        (fun f => f.field_position == some 3) =
      ([fT2, fT1] : List FieldSchema).filter
        (fun f => f.field_position == some 3)) :=
  ⟨rfl, by decide, by decide,
    (claim9_stable_sorts ⟨[fT2, fT1], none⟩ rfl).1 5,
    (claim9_stable_sorts ⟨[fT2, fT1], none⟩ rfl).2 (some 3)⟩

/-- A field declared with the unsupported type "BOOL". -/
def fBool : FieldSchema := ⟨"a", none, none, "BOOL", none⟩

theorem pyIdx_lt {n : Nat} {p : Int} {i : Nat} (h : pyIdx n p = some i) : i < n := by
  unfold pyIdx at h
  split_ifs at h with h1 h2
  · injection h with h
    omega
  · injection h with h
    omega

theorem lookupK_setK_self (k : String) (v : PyValue) (l : List (String × PyValue)) :
    lookupK k (setK k v l) = some v := by
  induction l with
  | nil => simp [setK, lookupK]
  | cons hd t ih =>
    obtain ⟨k', v'⟩ := hd
    by_cases h : k' = k
    · simp [setK, h, lookupK]
    · simp [setK, h, lookupK, ih]

theorem lookupK_setK_ne (k k' : String) (v : PyValue) (l : List (String × PyValue))
    (h : k' ≠ k) : lookupK k' (setK k v l) = lookupK k' l := by
  induction l with
  | nil => simp [setK, lookupK, Ne.symm h]
  | cons hd t ih =>
    obtain ⟨k0, v0⟩ := hd
    by_cases h0 : k0 = k
    · subst h0
      simp [setK, lookupK, Ne.symm h]
    · by_cases h1 : k0 = k'
      · simp [setK, h0, lookupK, h1, h]
      · simp [setK, h0, lookupK, h1, ih]

/-- C3: `get_value` dispatches on the record's shape — index
`field_position` for a list, key `field_key` for a dict, attribute
`field_key` otherwise — and returns the conversion of the raw value to the
field's declared type under `field_format`; on the sequence `["5", "x"]`,
the INT field at position 0 yields the integer 5 and the STRING field at
position 1 yields "x". -/
theorem claim3_get_value_dispatch :
    (∀ (fld : FieldSchema) (vs : List PyValue) (p : Int) (i : Nat)
        (v : PyValue) (ty : PyType),
      fld.field_position = some p → pyIdx vs.length p = some i →
      vs[i]? = some v → FIELD_SCHEMA_PYTHON_TYPES fld.field_type = some ty →
      fld.get_value (.rlist vs) = convert_value ty v fld.field_format) ∧
    (∀ (fld : FieldSchema) (kvs : List (String × PyValue)) (v : PyValue)
        (ty : PyType),
      lookupK fld.field_key kvs = some v →
      FIELD_SCHEMA_PYTHON_TYPES fld.field_type = some ty →
      fld.get_value (.rdict kvs) = convert_value ty v fld.field_format) ∧
    (∀ (fld : FieldSchema) (attrs : List (String × PyValue)) (v : PyValue)
        (ty : PyType),
      lookupK fld.field_key attrs = some v →
      FIELD_SCHEMA_PYTHON_TYPES fld.field_type = some ty →
      fld.get_value (.robj attrs) = convert_value ty v fld.field_format) ∧
    fA.get_value (.rlist [.vStr "5", .vStr "x"]) = .ok (.vInt 5) ∧
    fB.get_value (.rlist [.vStr "5", .vStr "x"]) = .ok (.vStr "x") := by
  refine ⟨?_, ?_, ?_, rfl, rfl⟩
  · intro fld vs p i v ty hp hi hv hty
    simp [FieldSchema.get_value, FieldSchema.get_raw, hp, hi, hv, hty]
    rfl
  · intro fld kvs v ty hk hty
    simp [FieldSchema.get_value, FieldSchema.get_raw, hk, hty]
    rfl
  · intro fld attrs v ty hk hty
    simp [FieldSchema.get_value, FieldSchema.get_raw, hk, hty]
    rfl

/-- C3 witness: the sequence branch of the claim instantiated at field A,
the record `["5", "x"]`, index 0 and target type INT, every hypothesis
holding definitionally. -/
theorem claim3_get_value_dispatch_witness :
    (fA.field_position = some 0 ∧ pyIdx 2 0 = some 0 ∧
      ([PyValue.vStr "5", PyValue.vStr "x"][0]? = some (PyValue.vStr "5")) ∧
      FIELD_SCHEMA_PYTHON_TYPES fA.field_type = some PyType.tInt) ∧
    fA.get_value (.rlist [.vStr "5", .vStr "x"]) =
      convert_value .tInt (.vStr "5") fA.field_format :=
  ⟨⟨rfl, rfl, rfl, rfl⟩,
    claim3_get_value_dispatch.1 fA [.vStr "5", .vStr "x"] 0 0 (.vStr "5") .tInt
      rfl rfl rfl rfl⟩

/-- C4: when the field's slot does not exist — list index out of bounds,
dict key absent, attribute undefined — `get_value` yields the field-access
error; when the slot exists but the conversion fails, the converter's error
is propagated to the caller unchanged. -/
theorem claim4_error_paths :
    (∀ (fld : FieldSchema) (vs : List PyValue) (p : Int),
      fld.field_position = some p → pyIdx vs.length p = none →
      fld.get_value (.rlist vs) = .error .fieldAccessError) ∧
    (∀ (fld : FieldSchema) (kvs : List (String × PyValue)),
      lookupK fld.field_key kvs = none →
      fld.get_value (.rdict kvs) = .error .fieldAccessError) ∧
    (∀ (fld : FieldSchema) (attrs : List (String × PyValue)),
      lookupK fld.field_key attrs = none →
      fld.get_value (.robj attrs) = .error .fieldAccessError) ∧
    (∀ (fld : FieldSchema) (obj : Record) (v : PyValue) (ty : PyType)
        (e : DataErr),
      fld.get_raw obj = .ok v →
      FIELD_SCHEMA_PYTHON_TYPES fld.field_type = some ty →
      convert_value ty v fld.field_format = .error e →
      fld.get_value obj = .error e) := by
  refine ⟨?_, ?_, ?_, ?_⟩
  · intro fld vs p hp hi
    simp [FieldSchema.get_value, FieldSchema.get_raw, hp, hi]
    rfl
  · intro fld kvs hk
    simp [FieldSchema.get_value, FieldSchema.get_raw, hk]
    rfl
  · intro fld attrs hk
    simp [FieldSchema.get_value, FieldSchema.get_raw, hk]
    rfl
  · intro fld obj v ty e hraw hty hconv
    simp [FieldSchema.get_value, hraw, hty]
    exact hconv

/-- C4 witness: field A on the empty list (index 0 out of bounds) yields
the field-access error; on a dict whose slot holds the non-numeric "q",
the converter's conversion error is propagated unchanged. -/
theorem claim4_error_paths_witness :
    (fA.field_position = some 0 ∧ pyIdx 0 0 = none ∧
      fA.get_value (.rlist []) = .error .fieldAccessError) ∧
    (fA.get_raw (.rdict [("a", .vStr "q")]) = .ok (.vStr "q") ∧
      FIELD_SCHEMA_PYTHON_TYPES fA.field_type = some PyType.tInt ∧
      convert_value .tInt (.vStr "q") fA.field_format = .error .conversionError ∧
      fA.get_value (.rdict [("a", .vStr "q")]) = .error .conversionError) :=
  ⟨⟨rfl, rfl, claim4_error_paths.1 fA [] 0 rfl rfl⟩,
   ⟨rfl, rfl, rfl,
    claim4_error_paths.2.2.2 fA (.rdict [("a", .vStr "q")]) (.vStr "q") .tInt
      .conversionError rfl rfl rfl⟩⟩

/-- C5: a field whose `field_type` is none of the five supported kinds
fails with the configuration error (the `FIELD_SCHEMA_PYTHON_TYPES` lookup
has no entry) on the first `get_value` conversion attempt, i.e. whenever
the record slot itself exists. -/
theorem claim5_unsupported_field_type (fld : FieldSchema) (obj : Record)
    (v : PyValue)
    (hty : fld.field_type ∉ (["DATE", "DATETIME", "INT", "FLOAT", "STRING"] :
      List String))
    (hslot : fld.get_raw obj = .ok v) :
    fld.get_value obj = .error .configurationError := by
  have hnone : FIELD_SCHEMA_PYTHON_TYPES fld.field_type = none := by
    simp only [List.mem_cons, List.not_mem_nil, or_false, not_or] at hty
    obtain ⟨h1, h2, h3, h4, h5⟩ := hty
    simp [FIELD_SCHEMA_PYTHON_TYPES, h1, h2, h3, h4, h5]
  simp [FieldSchema.get_value, hslot, hnone]
  rfl

/-- C5 witness: a field declared with `field_type = "BOOL"` on a dict whose
slot exists raises the configuration error at the conversion attempt. -/
theorem claim5_unsupported_field_type_witness :
    (fBool.field_type ∉ (["DATE", "DATETIME", "INT", "FLOAT", "STRING"] :
      List String)) ∧
    fBool.get_raw (.rdict [("a", .vStr "1")]) = .ok (.vStr "1") ∧
    fBool.get_value (.rdict [("a", .vStr "1")]) = .error .configurationError :=
  ⟨by decide, rfl,
    claim5_unsupported_field_type fBool (.rdict [("a", .vStr "1")]) (.vStr "1")
      (by decide) rfl⟩

/-- C10: shape dispatch tests `list` first, then `dict`, and treats
everything else — in particular a tuple, which is ordered but not a `list`
— via attribute access: both accessors on a tuple take the attribute
branch and fail with the field-access error instead of reading or writing
positionally, while the same values in a list are accessed by position. -/
theorem claim10_tuple_attribute_fallback :
    (∀ (fld : FieldSchema) (vs : List PyValue),
      fld.get_value (.rtuple vs) = .error .fieldAccessError) ∧
    (∀ (fld : FieldSchema) (vs : List PyValue) (v : PyValue),
      fld.set_value (.rtuple vs) v = .error .fieldAccessError) ∧
    fA.get_value (.rtuple [.vStr "5", .vStr "x"]) = .error .fieldAccessError ∧
    fA.get_value (.rlist [.vStr "5", .vStr "x"]) = .ok (.vInt 5) :=
  ⟨fun _ _ => rfl, fun _ _ _ => rfl, rfl, rfl⟩

/-- C6: whenever `set_value` succeeds it has written the value into the
field's resolved slot with no coercion — the raw read of that slot returns
exactly the value — and every other slot of the record is unchanged (and
the record keeps its shape). -/
theorem claim6_set_value_frame (fld : FieldSchema) (obj : Record)
    (v : PyValue) (obj' : Record) (h : fld.set_value obj v = .ok obj') :
    fld.get_raw obj' = .ok v ∧ writeFrame fld obj obj' := by
  cases obj with
  | rlist vs =>
    cases hp : fld.field_position with
    | none => simp [FieldSchema.set_value, hp] at h
    | some p =>
      cases hi : pyIdx vs.length p with
      | none => simp [FieldSchema.set_value, hp, hi] at h
      | some i =>
        have hobj' : obj' = .rlist (vs.set i v) := by
          simp [FieldSchema.set_value, hp, hi] at h
          exact h.symm
        subst hobj'
        have hlt : i < vs.length := pyIdx_lt hi
        have hread : (vs.set i v)[i]? = some v :=
          List.getElem?_set_eq_of_lt v (by simpa using hlt)
        constructor
        · simp [FieldSchema.get_raw, hp, List.length_set, hi, hread]
        · refine ⟨List.length_set vs i v, ?_⟩
          intro j hj
          have hji : i ≠ j := by
            intro he
            apply hj
            rw [hp]
            simp [Option.bind, hi, he]
          exact List.getElem?_set_ne hji
  | rdict kvs =>
    have hobj' : obj' = .rdict (setK fld.field_key v kvs) := by
      simp [FieldSchema.set_value] at h
      exact h.symm
    subst hobj'
    exact ⟨by simp [FieldSchema.get_raw, lookupK_setK_self],
      fun k hk => lookupK_setK_ne fld.field_key k v kvs hk⟩
  | robj attrs =>
    have hobj' : obj' = .robj (setK fld.field_key v attrs) := by
      simp [FieldSchema.set_value] at h
      exact h.symm
    subst hobj'
    exact ⟨by simp [FieldSchema.get_raw, lookupK_setK_self],
      fun k hk => lookupK_setK_ne fld.field_key k v attrs hk⟩
  | rtuple vs => simp [FieldSchema.set_value] at h

/-- C6 witness: the spec scenario — setting the named attribute on an
attribute-bearing object; the raw read returns the identical value with no
conversion and the other attribute is untouched. -/
theorem claim6_set_value_frame_witness :
    fA.set_value (.robj [("a", .vInt 1), ("c", .vInt 2)]) (.vStr "z") =
      .ok (.robj [("a", .vStr "z"), ("c", .vInt 2)]) ∧
    fA.get_raw (.robj [("a", .vStr "z"), ("c", .vInt 2)]) = .ok (.vStr "z") ∧
    writeFrame fA (.robj [("a", .vInt 1), ("c", .vInt 2)])
      (.robj [("a", .vStr "z"), ("c", .vInt 2)]) :=
  ⟨rfl,
    (claim6_set_value_frame fA (.robj [("a", .vInt 1), ("c", .vInt 2)])
      (.vStr "z") (.robj [("a", .vStr "z"), ("c", .vInt 2)]) rfl).1,
    (claim6_set_value_frame fA (.robj [("a", .vInt 1), ("c", .vInt 2)])
      (.vStr "z") (.robj [("a", .vStr "z"), ("c", .vInt 2)]) rfl).2⟩

/-- C7 counterexample: `get_fields` is not memoized.  On the instance
`sMut1` (fields `[A, B]`, first `get_unique_fields` call already made),
mutating the field collection to `[B]` — the same instance, its
`_unique_fields` attribute untouched, no new instance constructed —
changes the result of `get_fields` from `[A, B]` to `[B]`: the listing is
recomputed on every call, while the unique-field list of the very same
mutated instance still returns the stale cached `[B, A]`.  This refutes
the claim that both derived orderings are computed at most once and
memoized for the lifetime of the instance. -/
theorem claim7_memoization_counterexample :
    DataSchema.get_fields sMut1 = [fA, fB] ∧
    DataSchema.get_fields sMut2 = [fB] ∧
    DataSchema.get_fields sMut1 ≠ DataSchema.get_fields sMut2 ∧
    (DataSchema.get_unique_fields sMut2).1 = [fB, fA] := by
  refine ⟨by decide, by decide, by decide, by decide⟩

/-- C7 (amended): only `get_unique_fields` is memoized per instance — a
second call returns the cached list and leaves the instance unchanged, and
the cache survives mutation of the field collection, being dropped only
with the instance itself; `get_fields` has no cache at all: its result
ignores the memoized attribute and is recomputed from the current field
collection on every call (the concrete mutated instance `sMut2` shows the
recomputation). -/
theorem claim7_memoization_amended :
    (∀ s : DataSchema,
      (s.get_unique_fields.2).get_unique_fields =
        (s.get_unique_fields.1, s.get_unique_fields.2)) ∧
    (∀ (s : DataSchema) (l : List FieldSchema),
      (DataSchema.get_unique_fields
        { s.get_unique_fields.2 with fieldschema_set := l }).1 =
        s.get_unique_fields.1) ∧
    (∀ (l : List FieldSchema) (c c' : Option (List FieldSchema)),
      DataSchema.get_fields ⟨l, c⟩ = DataSchema.get_fields ⟨l, c'⟩) ∧
    DataSchema.get_fields sMut2 ≠ DataSchema.get_fields sMut1 := by
  refine ⟨?_, ?_, fun l c c' => rfl, by decide⟩
  · intro s
    cases hc : s.unique_fields_cache <;>
      simp [DataSchema.get_unique_fields, hc]
  · intro s l
    cases hc : s.unique_fields_cache <;>
      simp [DataSchema.get_unique_fields, hc]
